import Mathlib

/-!
Verification of the prenda rendering service against its specification.

This file shallowly embeds the parts of the TypeScript source that the
checked properties are about:

* `src/browser/requests.ts` — the `RequestWatcher` network-event state machine;
* `src/render/tab.ts` — the `TabRenderer` control flow (`renderImpl`,
  `loadPage`, `getResult`);
* `src/support/promise.ts` — the `ReentrancyGuard` single-flight primitive;
* `src/browser/providers/supervisor.ts` — the `BrowserSupervisor` option
  derivation and recycle scheduling;
* `src/support/backoff.ts` — the `TriesBackoff` policy;
* `src/render/browser.ts` — the `DialogHandler` subscription lifecycle;
* `src/browser/process.ts` — the `BrowserProcess.stopImpl` path.

Asynchronous effects (CDP calls, timers) are modelled by explicit state
passing; the outcomes of awaited external steps are inputs of the model.
Protocol timestamps appear as already-converted integer microsecond values
(the numeric conversion `secsToHrTime` is orthogonal to the properties here).
-/

namespace Prenda

/-! ## Request watcher (`src/browser/requests.ts`) -/

/-- Ready states of a request record (`RequestReadyState`). -/
inductive RequestReadyState
  | pending
  | response
  | loaded
  | failed
deriving DecidableEq, Repr

/-- A request record. The TypeScript source uses a union of object shapes that
are merged in place with `Object.assign`; the runtime object is this flat
record with optional fields. -/
structure Request where
  id : String
  url : String
  sentAt : Nat
  readyState : RequestReadyState
  responseReceivedAt : Option Nat := none
  statusCode : Option Nat := none
  headers : List (String × String) := []
  fromDiskCache : Bool := false
  completedAt : Option Nat := none
  errorText : Option String := none
deriving DecidableEq, Repr

/-- The four CDP `Network` events the watcher subscribes to. -/
inductive NetEvent
  | requestWillBeSent (requestId url : String) (timestamp : Nat) (hasRedirectResponse : Bool)
  | responseReceived (requestId : String) (timestamp : Nat) (status : Nat)
      (headers : List (String × String)) (fromDiskCache : Bool)
  | loadingFinished (requestId : String) (timestamp : Nat)
  | loadingFailed (requestId : String) (timestamp : Nat) (errorText : String)
deriving DecidableEq, Repr

/-- State of a `RequestWatcher` while watching: the four client subscriptions
(`_clientSubs`, a `true` flag means the subscription is still attached), the
insertion-ordered request map `_requests`, and `_initialRequest` (kept by id;
the TypeScript field aliases the map entry, which is mutated in place). -/
structure WatcherState where
  onlyInitial : Bool
  subRequest : Bool
  subResponse : Bool
  subFinished : Bool
  subFailed : Bool
  requests : List (String × Request)
  initialRequestId : Option String
deriving DecidableEq, Repr

/-- Lookup in the insertion-ordered request map. -/
def lookupReq (id : String) : List (String × Request) → Option Request
  | [] => none
  | (k, r) :: rest => if k = id then some r else lookupReq id rest

/-- In-place update of a map entry (the effect of `Object.assign(request, …)`
on the object stored in the map). -/
def updateReq (id : String) (r : Request) : List (String × Request) → List (String × Request)
  | [] => []
  | (k, r₀) :: rest => if k = id then (k, r) :: rest else (k, r₀) :: updateReq id r rest

/-- Handler for `Network.requestWillBeSent` (`RequestWatcher.onHttpRequest`).
A `redirectResponse`-carrying event returns before everything else; in
only-initial mode the subscription detaches itself before the duplicate-id
check and the insertion. -/
def RequestWatcher.onHttpRequest (s : WatcherState) (requestId url : String)
    (timestamp : Nat) (hasRedirectResponse : Bool) : WatcherState :=
  if hasRedirectResponse then s
  else
    let s₁ := { s with subRequest := if s.onlyInitial then false else s.subRequest }
    let request : Request :=
      { id := requestId, url := url, sentAt := timestamp, readyState := .pending }
    if (lookupReq requestId s₁.requests).isSome then s₁
    else
      { s₁ with
        requests := s₁.requests ++ [(requestId, request)]
        initialRequestId :=
          match s₁.initialRequestId with
          | none => some requestId
          | some i => some i }

/-- Handler for `Network.responseReceived` (`RequestWatcher.onHttpResponse`).
The headers are stored as a shallow copy of the event's header map
(`Object.assign({}, response.headers)`). -/
def RequestWatcher.onHttpResponse (s : WatcherState) (requestId : String) (timestamp : Nat)
    (status : Nat) (headers : List (String × String)) (fromDiskCache : Bool) : WatcherState :=
  match lookupReq requestId s.requests with
  | none => s
  | some request =>
    let s₁ := { s with subResponse := if s.onlyInitial then false else s.subResponse }
    if request.readyState ≠ .pending then s₁
    else
      let updated := { request with
        readyState := .response
        responseReceivedAt := some timestamp
        statusCode := some status
        headers := headers
        fromDiskCache := fromDiskCache }
      { s₁ with requests := updateReq requestId updated s₁.requests }

/-- Handler for `Network.loadingFinished` (`RequestWatcher.onHttpFinished`). -/
def RequestWatcher.onHttpFinished (s : WatcherState) (requestId : String)
    (timestamp : Nat) : WatcherState :=
  match lookupReq requestId s.requests with
  | none => s
  | some request =>
    let s₁ := { s with subFinished := if s.onlyInitial then false else s.subFinished }
    if request.readyState ≠ .response then s₁
    else
      let updated := { request with readyState := .loaded, completedAt := some timestamp }
      { s₁ with requests := updateReq requestId updated s₁.requests }

/-- Handler for `Network.loadingFailed` (`RequestWatcher.onHttpFailed`).
The spread `{responseReceivedAt: undefined, ...request, …}` keeps the
record's `responseReceivedAt` when it was set at the response stage. -/
def RequestWatcher.onHttpFailed (s : WatcherState) (requestId : String) (timestamp : Nat)
    (errorText : String) : WatcherState :=
  match lookupReq requestId s.requests with
  | none => s
  | some request =>
    let s₁ := { s with subFailed := if s.onlyInitial then false else s.subFailed }
    if request.readyState ≠ .pending ∧ request.readyState ≠ .response then s₁
    else
      let updated := { request with
        readyState := .failed
        completedAt := some timestamp
        errorText := some errorText }
      { s₁ with requests := updateReq requestId updated s₁.requests }

/-- One event dispatch: a handler only runs while its subscription is attached. -/
def stepEvent (s : WatcherState) : NetEvent → WatcherState
  | .requestWillBeSent id url t redir =>
    if s.subRequest then RequestWatcher.onHttpRequest s id url t redir else s
  | .responseReceived id t st hs dc =>
    if s.subResponse then RequestWatcher.onHttpResponse s id t st hs dc else s
  | .loadingFinished id t =>
    if s.subFinished then RequestWatcher.onHttpFinished s id t else s
  | .loadingFailed id t e =>
    if s.subFailed then RequestWatcher.onHttpFailed s id t e else s

/-- Watcher state right after `watch(client)`: all four subscriptions attached,
no records, no initial request. -/
def watchInit (onlyInitial : Bool) : WatcherState :=
  { onlyInitial := onlyInitial
    subRequest := true
    subResponse := true
    subFinished := true
    subFailed := true
    requests := []
    initialRequestId := none }

/-- Process a sequence of network events in order. -/
def processEvents (s : WatcherState) (events : List NetEvent) : WatcherState :=
  events.foldl stepEvent s

/-- The raw record aliased by `_initialRequest` (it lives in the map and is
mutated in place). -/
def WatcherState.initialRequestRecord (s : WatcherState) : Option Request :=
  match s.initialRequestId with
  | none => none
  | some id => lookupReq id s.requests

/-- The public `initialRequest` getter: returns the record only once it is
`Loaded` or `Failed`. -/
def WatcherState.initialRequest (s : WatcherState) : Option Request :=
  match s.initialRequestRecord with
  | none => none
  | some r =>
    if r.readyState ≠ .loaded ∧ r.readyState ≠ .failed then none else some r

/-- The id of the first `requestWillBeSent` event in a trace that does not
carry a `redirectResponse`. -/
def firstNonRedirectRequestId : List NetEvent → Option String
  | [] => none
  | .requestWillBeSent id _ _ redir :: rest =>
    if redir then firstNonRedirectRequestId rest else some id
  | _ :: rest => firstNonRedirectRequestId rest

/-- A request "reached at least the Response ready state": it currently holds
a response, or it completed after one was received. -/
def Request.reachedAtLeastResponse (r : Request) : Bool :=
  r.readyState == .response || r.readyState == .loaded ||
    (r.readyState == .failed && r.responseReceivedAt.isSome)

/-- An event of the `requestWillBeSent` class that pertains to the initial
request: it does not carry a `redirectResponse` and either no initial request
exists yet (the event creates it) or its id is the initial request's id. -/
def pertainsRequestEvent (s : WatcherState) : NetEvent → Prop
  | .requestWillBeSent id _ _ redir =>
    redir = false ∧ (s.initialRequestId = none ∨ s.initialRequestId = some id)
  | _ => False

/-- An event of the `responseReceived` class that pertains to the initial
request: its id has a record and that record is the initial request's. -/
def pertainsResponseEvent (s : WatcherState) : NetEvent → Prop
  | .responseReceived id _ _ _ _ =>
    (lookupReq id s.requests).isSome ∧ s.initialRequestId = some id
  | _ => False

/-- An event of the `loadingFinished` class that pertains to the initial
request. -/
def pertainsFinishedEvent (s : WatcherState) : NetEvent → Prop
  | .loadingFinished id _ =>
    (lookupReq id s.requests).isSome ∧ s.initialRequestId = some id
  | _ => False

/-- An event of the `loadingFailed` class that pertains to the initial
request. -/
def pertainsFailedEvent (s : WatcherState) : NetEvent → Prop
  | .loadingFailed id _ _ =>
    (lookupReq id s.requests).isSome ∧ s.initialRequestId = some id
  | _ => False

/-- Names of a header map are all lowercase: no name contains an uppercase
letter. -/
def headerNamesLowercased (headers : List (String × String)) : Prop :=
  ∀ p ∈ headers, ∀ c ∈ p.1.data, c.isUpper = false

/-- Well-formedness of a reachable request record: a pending record has no
response timestamp, a record at `Response` or `Loaded` has one, and the
status code is present exactly when the response timestamp is. -/
def RequestWf (r : Request) : Prop :=
  (r.readyState = .pending → r.responseReceivedAt = none)
  ∧ ((r.readyState = .response ∨ r.readyState = .loaded) → r.responseReceivedAt.isSome = true)
  ∧ r.statusCode.isSome = r.responseReceivedAt.isSome

/-! ## Tab renderer (`src/render/tab.ts`) -/

/-- Error kinds of a render (`RenderErrorType`). -/
inductive RenderErrorType
  | tabCreationFailed
  | initialRequestFailed
  | initialRequestStatus
  | timeout
  | browserUnavailable
deriving DecidableEq, Repr

/-- Completion types (`CompletionType` of `src/render/pageload/config.ts`). -/
inductive CompletionType
  | Requests
  | Variable
  | Event
  | PageLoadTimeout
  | Never
  | Always
deriving DecidableEq, Repr

/-- A recorded render error (`_error`). -/
structure RenderError where
  type : RenderErrorType
  message : Option String
deriving DecidableEq, Repr

/-- A render result (`RenderResult`). Fields asserted non-null in the source
(`headers!`, `httpStatus!`, …) stay optional here, mirroring the runtime
values those assertions pass through unchecked. -/
inductive RenderResult
  | err (type : RenderErrorType) (message : Option String)
      (httpStatus : Option Nat) (headers : Option (List (String × String)))
  | ok (resolvedUrl : Option String) (httpStatus : Option Nat)
      (headers : Option (List (String × String))) (html : Option String)
      (completion : Option CompletionType)
deriving DecidableEq, Repr

/-- The renderer options that steer the control flow modelled here. -/
structure TabRenderOptions where
  allowsPartialLoad : Bool
  expectedStatusCodes : Option (List Nat)
  debug : Bool
deriving DecidableEq, Repr

/-- Outcomes of the awaited external steps of one render: whether tab creation
threw, the network events the watcher processed, whether the page-load phase
ran out of time before `loadPage` completed, the `domContentEventFired` flag,
the completion type the trigger resolved with, and the HTML read from the page
(`none` when `readHtml` threw). -/
structure RenderEnv where
  createTabFails : Bool
  netEvents : List NetEvent
  timedOut : Bool
  domContentLoaded : Bool
  triggerCompletion : CompletionType
  htmlRead : Option String
deriving DecidableEq, Repr

/-- The watcher state once the render's events have been dispatched; the
watcher is created with `onlyInitial = !debug`. -/
def finalWatcher (opts : TabRenderOptions) (env : RenderEnv) : WatcherState :=
  processEvents (watchInit (!opts.debug)) env.netEvents

/-- `TabRenderer.initialRequestStatusOk`. -/
def initialRequestStatusOk (opts : TabRenderOptions) (r : Request) : Bool :=
  match opts.expectedStatusCodes with
  | none => true
  | some codes =>
    match r.statusCode with
    | none => false
    | some c => codes.contains c

/-- `httpStatus` of `TabRenderer.getResult`: populated from the initial
request only when the `initialRequest` getter yields a record that has
`responseReceivedAt` set. -/
def resultHttpStatus (w : WatcherState) : Option Nat :=
  match w.initialRequest with
  | some r => if r.responseReceivedAt.isSome then r.statusCode else none
  | none => none

/-- `headers` of `TabRenderer.getResult` (a shallow copy of the record's
header map). -/
def resultHeaders (w : WatcherState) : Option (List (String × String)) :=
  match w.initialRequest with
  | some r => if r.responseReceivedAt.isSome then some r.headers else none
  | none => none

/-- `TabRenderer.getResult`. -/
def getResult (w : WatcherState) (error : Option RenderError) (resolvedUrl : Option String)
    (completion : Option CompletionType) (html : Option String) : RenderResult :=
  match error with
  | some e => .err e.type e.message (resultHttpStatus w) (resultHeaders w)
  | none => .ok resolvedUrl (resultHttpStatus w) (resultHeaders w) html completion

/-- Effects of an uninterrupted `TabRenderer.loadPage` on `_error`,
`_resolvedUrl` and `_completion`, reading the record the initial-request
promise resolved with. (If that promise never resolved, `loadPage` is still
suspended, which in a finished render only happens on the timeout path; the
no-effect value returned for that case is then unused.) -/
def loadPage (opts : TabRenderOptions) (w : WatcherState) (trigger : CompletionType) :
    Option RenderError × Option String × Option CompletionType :=
  match w.initialRequest with
  | none => (none, none, none)
  | some r =>
    if r.readyState ≠ .loaded then
      (some { type := .initialRequestFailed, message := r.errorText }, some r.url, none)
    else if ¬ initialRequestStatusOk opts r then
      (some { type := .initialRequestStatus, message := some "unexpected status" }, some r.url, none)
    else
      (none, some r.url, some trigger)

/-- `TabRenderer.renderImpl` followed by `getResult`: the whole control flow of
one render. `none` means the render threw (the `readHtml` failure propagates
out of `renderImpl` after teardown). On the timeout path `loadPage` was
interrupted at an await, before any of its error assignments. -/
def renderModel (opts : TabRenderOptions) (env : RenderEnv) : Option RenderResult :=
  let w := finalWatcher opts env
  if env.createTabFails then
    some (getResult w (some { type := .tabCreationFailed, message := some "create tab" }) none none none)
  else if env.timedOut then
    let resolvedUrl := (w.initialRequest).map (·.url)
    if env.domContentLoaded = false ∨ opts.allowsPartialLoad = false then
      some (getResult w (some { type := .timeout, message := none }) resolvedUrl none none)
    else
      match env.htmlRead with
      | none => none
      | some html =>
        some (getResult w none resolvedUrl (some .PageLoadTimeout) (some html))
  else
    match loadPage opts w env.triggerCompletion with
    | (some e, resolvedUrl, _) => some (getResult w (some e) resolvedUrl none none)
    | (none, resolvedUrl, completion) =>
      match env.htmlRead with
      | none => none
      | some html => some (getResult w none resolvedUrl completion (some html))

/-- The amended presence condition for `httpStatus`/`headers` on an error
result: the initial request record completed (reached `Loaded` or `Failed`)
and a response was received along the way. -/
def WatcherState.initialCompletedWithResponse (w : WatcherState) : Bool :=
  match w.initialRequestRecord with
  | some r =>
    (r.readyState == .loaded || r.readyState == .failed) && r.reachedAtLeastResponse
  | none => false

/-- Concrete trace: one non-redirect request followed by its response. -/
def responseOnlyTrace : List NetEvent :=
  [.requestWillBeSent "r1" "http://example.com/" 0 false,
   .responseReceived "r1" 1 200 [("Content-Type", "text/html")] false]

/-- Concrete render options used by the counterexamples and witnesses. -/
def plainOptions : TabRenderOptions :=
  { allowsPartialLoad := false, expectedStatusCodes := none, debug := false }

/-- Environment of a render that times out while the initial request is stuck
at the Response ready state. -/
def timeoutAtResponseEnv : RenderEnv :=
  { createTabFails := false
    netEvents := responseOnlyTrace
    timedOut := true
    domContentLoaded := false
    triggerCompletion := .Always
    htmlRead := some "<html></html>" }

/-- Environment of a render that times out after the initial request finished
loading. -/
def loadedTimeoutEnv : RenderEnv :=
  { createTabFails := false
    netEvents := responseOnlyTrace ++ [.loadingFinished "r1" 2]
    timedOut := true
    domContentLoaded := false
    triggerCompletion := .Always
    htmlRead := some "<html></html>" }

/-- Render options with partial loads allowed. -/
def partialOptions : TabRenderOptions :=
  { allowsPartialLoad := true, expectedStatusCodes := none, debug := false }

/-- Environment of a render that times out after `DOMContentLoaded` fired. -/
def partialLoadEnv : RenderEnv :=
  { createTabFails := false
    netEvents := []
    timedOut := true
    domContentLoaded := true
    triggerCompletion := .Always
    htmlRead := some "<p>1</p>" }

/-! ## Reentrancy guard (`src/support/promise.ts`) -/

/-- State of a `ReentrancyGuard`: the pending promise, identified by a token,
or `none` when idle. -/
structure ReentrancyGuard where
  promise : Option Nat
deriving DecidableEq, Repr

/-- `ReentrancyGuard.run`: while a promise is pending every caller gets that
same promise with `first = false` and the body is not invoked; otherwise a new
promise is installed, the body starts, and the caller gets `first = true`.
The returned `Bool` is the `first` flag. -/
def ReentrancyGuard.run (g : ReentrancyGuard) (fresh : Nat) : Nat × Bool × ReentrancyGuard :=
  match g.promise with
  | some p => (p, false, g)
  | none => (fresh, true, { promise := some fresh })

/-- `BrowserSupervisor.recycleMain` emits a `recycle` event only for the
caller whose `run` returned `first = true`; likewise only that caller executed
the recycle body. -/
def recycleEmitCount (first : Bool) : Nat :=
  if first then 1 else 0

/-! ## Browser supervisor options and recycle scheduling
(`src/browser/providers/supervisor.ts`) -/

/-- Result of a recycle run (`BrowserRecycleResult`). -/
inductive BrowserRecycleResult
  | recycled
  | canceled
  | standbyUnavailable
deriving DecidableEq, Repr

/-- The constructor options relevant to recycling (each `none` means "not
provided"). -/
structure BrowserSupervisorOptions where
  autoRecycle : Option Bool
  autoRecycleAfterUptimeMillis : Option Nat
  autoRecycleRetryAfterMillis : Option Nat
  recycleDrainMillis : Option Nat
deriving DecidableEq, Repr

/-- The configured fallback values (`defaults.browser.provider.internal`). -/
structure SupervisorDefaults where
  autoRecycleAfterUptimeMillis : Nat
  autoRecycleRetryAfterMillis : Nat
  recycleDrainMillis : Nat
deriving DecidableEq, Repr

/-- The derived internal options. -/
structure BrowserSupervisorOptionsInternal where
  autoRecycle : Bool
  autoRecycleAfterUptimeMillis : Nat
  autoRecycleRetryAfterMillis : Nat
  recycleDrainMillis : Nat
deriving DecidableEq, Repr

/-- Option derivation in the `BrowserSupervisor` constructor. Note that the
source derives `autoRecycleRetryAfterMillis` from
`options.autoRecycleAfterUptimeMillis` (`??` falling back to the retry
default), never reading `options.autoRecycleRetryAfterMillis`. -/
def BrowserSupervisor.deriveInternalOptions (defaults : SupervisorDefaults)
    (options : BrowserSupervisorOptions) : BrowserSupervisorOptionsInternal :=
  { autoRecycle := options.autoRecycle.getD true
    autoRecycleAfterUptimeMillis :=
      options.autoRecycleAfterUptimeMillis.getD defaults.autoRecycleAfterUptimeMillis
    autoRecycleRetryAfterMillis :=
      options.autoRecycleAfterUptimeMillis.getD defaults.autoRecycleRetryAfterMillis
    recycleDrainMillis := options.recycleDrainMillis.getD defaults.recycleDrainMillis }

/-- Delay computed by `scheduleMainRecycle`: the explicit argument if given,
else `max(autoRecycleAfterUptimeMillis − main.mainUptimeMillis, 0)` (truncated
subtraction). -/
def BrowserSupervisor.scheduleMainRecycleDelay (opts : BrowserSupervisorOptionsInternal)
    (mainUptimeMillis : Nat) (requested : Option Nat) : Nat :=
  requested.getD (opts.autoRecycleAfterUptimeMillis - mainUptimeMillis)

/-- Delay of the follow-up scheduling inside the recycle timer callback:
`autoRecycleRetryAfterMillis` after `StandbyUnavailable`, a fresh uptime-based
delay after `Recycled` or `Canceled`. -/
def BrowserSupervisor.nextRecycleDelay (opts : BrowserSupervisorOptionsInternal)
    (mainUptimeMillis : Nat) : BrowserRecycleResult → Nat
  | .standbyUnavailable =>
    BrowserSupervisor.scheduleMainRecycleDelay opts mainUptimeMillis
      (some opts.autoRecycleRetryAfterMillis)
  | .recycled => BrowserSupervisor.scheduleMainRecycleDelay opts mainUptimeMillis none
  | .canceled => BrowserSupervisor.scheduleMainRecycleDelay opts mainUptimeMillis none

/-! ## Tiered backoff (`src/support/backoff.ts`) -/

/-- An entry of the tiered backoff table. -/
structure TriesBackoffEntry where
  tries : Nat
  millis : Nat
deriving DecidableEq, Repr

/-- Stable insertion of an entry into a list sorted ascending by `tries`
(placed after equal keys, as the stable JS sort keeps equal keys in order). -/
def insertByTries (e : TriesBackoffEntry) : List TriesBackoffEntry → List TriesBackoffEntry
  | [] => [e]
  | x :: xs => if x.tries ≤ e.tries then x :: insertByTries e xs else e :: x :: xs

/-- Stable sort ascending by `tries` (the constructor's
`sort((a, b) => Math.sign(a.tries - b.tries))`). -/
def sortByTries : List TriesBackoffEntry → List TriesBackoffEntry
  | [] => []
  | x :: xs => insertByTries x (sortByTries xs)

/-- State of a `TriesBackoff`. -/
structure TriesBackoff where
  entries : List TriesBackoffEntry
  index : Nat
  tries : Nat
deriving DecidableEq, Repr

/-- The `TriesBackoff` constructor: rejects an empty table with `LogicError`
(`none`), otherwise sorts the entries and starts at the first. -/
def TriesBackoff.create (entries : List TriesBackoffEntry) : Option TriesBackoff :=
  if entries = [] then none
  else some { entries := sortByTries entries, index := 0, tries := 0 }

/-- `TriesBackoff.getMillis`: the current entry's delay. -/
def TriesBackoff.getMillis (b : TriesBackoff) : Nat :=
  (b.entries.getD b.index { tries := 0, millis := 0 }).millis

/-- `TriesBackoff.nextTry`: increments the try counter, advances the index
when `index < entries.length - 1` and the NEXT entry's threshold is `≥` the
new try counter (this is the comparison the source performs), and returns the
current delay. -/
def TriesBackoff.nextTry (b : TriesBackoff) : Nat × TriesBackoff :=
  let tries := b.tries + 1
  let index :=
    if b.index < b.entries.length - 1 ∧
        tries ≤ (b.entries.getD (b.index + 1) { tries := 0, millis := 0 }).tries then
      b.index + 1
    else b.index
  let b' := { b with tries := tries, index := index }
  (b'.getMillis, b')

/-- `TriesBackoff.reset`. -/
def TriesBackoff.reset (b : TriesBackoff) : TriesBackoff :=
  { b with tries := 0, index := 0 }

/-- The delay the claim prescribes for the n-th call: the millis of the last
entry whose tries threshold has been crossed by the accumulated try count n
(the first entry's delay while no later threshold is crossed). -/
def claimedTieredDelay (entries : List TriesBackoffEntry) (n : Nat) : Nat :=
  match (entries.filter (fun e => e.tries ≤ n)).getLast? with
  | some e => e.millis
  | none => (entries.headD { tries := 0, millis := 0 }).millis

/-! ## Dialog handler (`src/render/browser.ts`) -/

/-- `DialogHandlerStatus`. -/
inductive DialogHandlerStatus
  | initial
  | running
  | stopped
deriving DecidableEq, Repr

/-- State of a `DialogHandler`: its status, whether it holds a client, and
whether its two `Page` event listeners are attached on that client. -/
structure DialogHandler where
  status : DialogHandlerStatus
  hasClient : Bool
  subDialogOpening : Bool
  subDialogClosed : Bool
deriving DecidableEq, Repr

/-- A freshly constructed `DialogHandler`. -/
def DialogHandler.make : DialogHandler :=
  { status := .initial, hasClient := false, subDialogOpening := false, subDialogClosed := false }

/-- `DialogHandler.init`: requires status `Initial` (else `LogicError`,
modelled as `none`), stores the client and attaches the
`Page.javascriptDialogOpening` and `Page.javascriptDialogClosed` listeners.
The source does not change `_status` here. -/
def DialogHandler.init (h : DialogHandler) : Option DialogHandler :=
  if h.status ≠ .initial then none
  else some { h with hasClient := true, subDialogOpening := true, subDialogClosed := true }

/-- `DialogHandler.close`: returns early (only marking the handler stopped)
while the status is `Initial`; is a no-op when already `Stopped`; otherwise
detaches both listeners and clears the client. -/
def DialogHandler.close (h : DialogHandler) : DialogHandler :=
  if h.status = .initial then { h with status := .stopped }
  else if h.status = .stopped then h
  else
    let h₁ :=
      if h.hasClient then { h with subDialogOpening := false, subDialogClosed := false }
      else h
    { h₁ with hasClient := false, status := .stopped }

/-! ## Browser process stop path (`src/browser/process.ts`) -/

/-- `BrowserProcessStatus`. -/
inductive BrowserProcessStatus
  | initial
  | starting
  | running
  | stopping
  | stopped
  | faulted
deriving DecidableEq, Repr

/-- `BrowserProcessStopReason`. -/
inductive BrowserProcessStopReason
  | requested
  | faulted
deriving DecidableEq, Repr

/-- Observable events the process emits on the stop path. -/
inductive ProcEvent
  | stopping (reason : BrowserProcessStopReason)
  | stop (reason : BrowserProcessStopReason)
deriving DecidableEq, Repr

/-- The fields of a `BrowserProcess` the stop path touches. -/
structure ProcessState where
  status : BrowserProcessStatus
  stopReason : Option BrowserProcessStopReason
  version : Nat
  hasProcess : Bool
  hasClient : Bool
deriving DecidableEq, Repr

/-- A `BrowserProcess` as constructed (status `Initial`, never started). -/
def initialProcess : ProcessState :=
  { status := .initial, stopReason := none, version := 0, hasProcess := false, hasClient := false }

/-- `BrowserProcess.stopImpl` for a single (first) caller. The body never
throws: client-close and kill errors are swallowed. Already-`Stopped`
processes skip the body but the first caller still emits `stop`; otherwise the
process passes through `Stopping` (emitting `stopping`), bumps the version,
clears the client/process references, reaches `Stopped` and emits `stop`. -/
def BrowserProcess.stopImpl (s : ProcessState) (reason : BrowserProcessStopReason) :
    ProcessState × List ProcEvent :=
  if s.status = .stopped then (s, [.stop reason])
  else
    let s₁ := { s with status := .stopping, stopReason := some reason }
    let s₂ := { s₁ with version := s₁.version + 1, hasProcess := false, hasClient := false }
    let s₃ := { s₂ with status := .stopped }
    (s₃, [.stopping reason, .stop reason])

/-- The status guard at the top of `BrowserProcess.startImpl`: `true` when the
call does not throw a `LogicError` (it returns silently when `Running`, and
proceeds from `Initial` or `Stopped`). -/
def BrowserProcess.startPermitted (s : ProcessState) : Bool :=
  s.status == .running || s.status == .initial || s.status == .stopped

/-! ## Basic lemmas about the request watcher -/

theorem processEvents_nil (s : WatcherState) : processEvents s [] = s := rfl

theorem processEvents_cons (s : WatcherState) (e : NetEvent) (L : List NetEvent) :
    processEvents s (e :: L) = processEvents (stepEvent s e) L := rfl

theorem stepEvent_redirect_eq (s : WatcherState) (id url : String) (t : Nat) :
    stepEvent s (.requestWillBeSent id url t true) = s := by
  simp [stepEvent, RequestWatcher.onHttpRequest]

theorem stepEvent_initialRequestId_mono (s : WatcherState) (e : NetEvent) (i : String)
    (h : s.initialRequestId = some i) : (stepEvent s e).initialRequestId = some i := by
  cases e <;>
    simp only [stepEvent, RequestWatcher.onHttpRequest, RequestWatcher.onHttpResponse,
      RequestWatcher.onHttpFinished, RequestWatcher.onHttpFailed] <;>
    (repeat' split) <;> simp_all

theorem processEvents_initialRequestId_mono (L : List NetEvent) :
    ∀ (s : WatcherState) (i : String), s.initialRequestId = some i →
      (processEvents s L).initialRequestId = some i := by
  induction L with
  | nil => intro s i h; exact h
  | cons e rest ih =>
    intro s i h
    rw [processEvents_cons]
    exact ih _ _ (stepEvent_initialRequestId_mono s e i h)

theorem stepEvent_pristine_other (s : WatcherState) (e : NetEvent)
    (hreq : s.requests = [])
    (hnotreq : ∀ id url t redir, e ≠ .requestWillBeSent id url t redir) :
    stepEvent s e = s := by
  cases e with
  | requestWillBeSent id url t redir => exact absurd rfl (hnotreq id url t redir)
  | responseReceived id t st hs dc =>
    simp [stepEvent, RequestWatcher.onHttpResponse, hreq, lookupReq]
  | loadingFinished id t =>
    simp [stepEvent, RequestWatcher.onHttpFinished, hreq, lookupReq]
  | loadingFailed id t e =>
    simp [stepEvent, RequestWatcher.onHttpFailed, hreq, lookupReq]

theorem pristine_firstNonRedirect (L : List NetEvent) :
    ∀ (s : WatcherState), s.requests = [] → s.initialRequestId = none →
      s.subRequest = true →
      (processEvents s L).initialRequestId = firstNonRedirectRequestId L := by
  induction L with
  | nil =>
    intro s _ h2 _
    simpa [processEvents_nil, firstNonRedirectRequestId] using h2
  | cons e rest ih =>
    intro s h1 h2 h3
    rw [processEvents_cons]
    cases e with
    | requestWillBeSent id url t redir =>
      cases redir with
      | true =>
        rw [stepEvent_redirect_eq]
        simpa [firstNonRedirectRequestId] using ih s h1 h2 h3
      | false =>
        have hstep : (stepEvent s (.requestWillBeSent id url t false)).initialRequestId
            = some id := by
          simp [stepEvent, RequestWatcher.onHttpRequest, h1, h2, h3, lookupReq]
        rw [processEvents_initialRequestId_mono rest _ id hstep]
        simp [firstNonRedirectRequestId]
    | responseReceived id t st hs dc =>
      rw [stepEvent_pristine_other s _ h1 (by intro _ _ _ _ h; cases h)]
      simpa [firstNonRedirectRequestId] using ih s h1 h2 h3
    | loadingFinished id t =>
      rw [stepEvent_pristine_other s _ h1 (by intro _ _ _ _ h; cases h)]
      simpa [firstNonRedirectRequestId] using ih s h1 h2 h3
    | loadingFailed id t e =>
      rw [stepEvent_pristine_other s _ h1 (by intro _ _ _ _ h; cases h)]
      simpa [firstNonRedirectRequestId] using ih s h1 h2 h3

/-- C1: a `requestWillBeSent` event carrying a `redirectResponse` creates no
new request record (the whole watcher state, and with it the originator's
record and id, is unchanged); the initial request is the first observed
non-redirect request; and once set, the initial request id is never
reassigned by any later event. -/
theorem requestWatcher_initial_request_frozen (b : Bool) (L : List NetEvent) :
    (∀ (s : WatcherState) (id url : String) (t : Nat),
        stepEvent s (.requestWillBeSent id url t true) = s)
    ∧ (processEvents (watchInit b) L).initialRequestId = firstNonRedirectRequestId L
    ∧ (∀ (s : WatcherState) (e : NetEvent) (i : String),
        s.initialRequestId = some i → (stepEvent s e).initialRequestId = some i) := by
  refine ⟨stepEvent_redirect_eq, ?_, stepEvent_initialRequestId_mono⟩
  exact pristine_firstNonRedirect L (watchInit b) rfl rfl rfl

/-- Witness for C1 at concrete inputs: a redirect-then-request trace assigns
the non-redirect id, and a later event keeps an already-set id. -/
theorem requestWatcher_initial_request_frozen_witness :
    (processEvents (watchInit true)
        [.requestWillBeSent "r0" "u" 0 true, .requestWillBeSent "r1" "u" 1 false,
         .loadingFinished "r1" 2]).initialRequestId = some "r1"
    ∧ (stepEvent (watchInit true) (.requestWillBeSent "r9" "u" 0 true)).initialRequestId
        = none := by
  constructor
  · have h := (requestWatcher_initial_request_frozen true
      [.requestWillBeSent "r0" "u" 0 true, .requestWillBeSent "r1" "u" 1 false,
       .loadingFinished "r1" 2]).2.1
    rw [h]; rfl
  · rw [(requestWatcher_initial_request_frozen true []).1 (watchInit true) "r9" "u" 0]; rfl

/-! ## The only-initial invariant and C6 -/

theorem lookupReq_mem (id : String) (l : List (String × Request)) (r : Request)
    (h : lookupReq id l = some r) : (id, r) ∈ l := by
  induction l with
  | nil => simp [lookupReq] at h
  | cons p rest ih =>
    obtain ⟨k, r₀⟩ := p
    rw [lookupReq] at h
    by_cases hk : k = id
    · subst hk
      rw [if_pos rfl] at h
      injection h with h
      subst h
      exact List.mem_cons_self _ _
    · simp only [if_neg hk] at h
      exact List.mem_cons_of_mem _ (ih h)

theorem mem_updateReq (id : String) (r : Request) (l : List (String × Request))
    (p : String × Request) (h : p ∈ updateReq id r l) : p ∈ l ∨ p = (id, r) := by
  induction l with
  | nil => simp [updateReq] at h
  | cons q rest ih =>
    rw [updateReq] at h
    by_cases hk : q.1 = id
    · simp only [if_pos hk] at h
      rcases List.mem_cons.mp h with h' | h'
      · right; rw [h', ← hk]
      · left; exact List.mem_cons_of_mem _ h'
    · simp only [if_neg hk] at h
      rcases List.mem_cons.mp h with h' | h'
      · left; exact h' ▸ List.mem_cons_self _ _
      · rcases ih h' with h'' | h''
        · left; exact List.mem_cons_of_mem _ h''
        · right; exact h''

theorem stepEvent_onlyInitial_inv (s : WatcherState) (e : NetEvent)
    (h0 : s.onlyInitial = true)
    (h1 : s.subRequest = true → s.requests = [] ∧ s.initialRequestId = none)
    (h2 : ∀ p ∈ s.requests, s.initialRequestId = some p.1) :
    (stepEvent s e).onlyInitial = true
    ∧ ((stepEvent s e).subRequest = true →
        (stepEvent s e).requests = [] ∧ (stepEvent s e).initialRequestId = none)
    ∧ (∀ p ∈ (stepEvent s e).requests, (stepEvent s e).initialRequestId = some p.1) := by
  cases e with
  | requestWillBeSent id url t redir =>
    by_cases hs : s.subRequest = true
    · obtain ⟨hreq, hinit⟩ := h1 hs
      cases redir with
      | true =>
        rw [stepEvent_redirect_eq]
        exact ⟨h0, h1, h2⟩
      | false =>
        simp [stepEvent, RequestWatcher.onHttpRequest, hs, h0, hreq, hinit, lookupReq]
    · have hstep : stepEvent s (.requestWillBeSent id url t redir) = s := by
        simp [stepEvent, hs]
      rw [hstep]
      exact ⟨h0, h1, h2⟩
  | responseReceived id t st hs dc =>
    by_cases hsub : s.subResponse = true
    · simp only [stepEvent, if_pos hsub, RequestWatcher.onHttpResponse]
      cases hlook : lookupReq id s.requests with
      | none => exact ⟨h0, h1, h2⟩
      | some r =>
        have hmem := lookupReq_mem id s.requests r hlook
        have hinit : s.initialRequestId = some id := h2 (id, r) hmem
        have hne : s.requests ≠ [] := by
          intro hnil; rw [hnil] at hmem; simp at hmem
        have hsreq : ¬ s.subRequest = true := fun hr => hne (h1 hr).1
        dsimp only
        by_cases hrs : r.readyState ≠ RequestReadyState.pending
        · rw [if_pos hrs]
          exact ⟨h0, fun hr => absurd hr hsreq, h2⟩
        · rw [if_neg hrs]
          refine ⟨h0, fun hr => absurd hr hsreq, ?_⟩
          intro p hp
          rcases mem_updateReq _ _ _ _ hp with hp' | hp'
          · exact h2 p hp'
          · rw [hp']; exact hinit
    · have hstep : stepEvent s (.responseReceived id t st hs dc) = s := by
        simp [stepEvent, hsub]
      rw [hstep]
      exact ⟨h0, h1, h2⟩
  | loadingFinished id t =>
    by_cases hsub : s.subFinished = true
    · simp only [stepEvent, if_pos hsub, RequestWatcher.onHttpFinished]
      cases hlook : lookupReq id s.requests with
      | none => exact ⟨h0, h1, h2⟩
      | some r =>
        have hmem := lookupReq_mem id s.requests r hlook
        have hinit : s.initialRequestId = some id := h2 (id, r) hmem
        have hne : s.requests ≠ [] := by
          intro hnil; rw [hnil] at hmem; simp at hmem
        have hsreq : ¬ s.subRequest = true := fun hr => hne (h1 hr).1
        dsimp only
        by_cases hrs : r.readyState ≠ RequestReadyState.response
        · rw [if_pos hrs]
          exact ⟨h0, fun hr => absurd hr hsreq, h2⟩
        · rw [if_neg hrs]
          refine ⟨h0, fun hr => absurd hr hsreq, ?_⟩
          intro p hp
          rcases mem_updateReq _ _ _ _ hp with hp' | hp'
          · exact h2 p hp'
          · rw [hp']; exact hinit
    · have hstep : stepEvent s (.loadingFinished id t) = s := by
        simp [stepEvent, hsub]
      rw [hstep]
      exact ⟨h0, h1, h2⟩
  | loadingFailed id t err =>
    by_cases hsub : s.subFailed = true
    · simp only [stepEvent, if_pos hsub, RequestWatcher.onHttpFailed]
      cases hlook : lookupReq id s.requests with
      | none => exact ⟨h0, h1, h2⟩
      | some r =>
        have hmem := lookupReq_mem id s.requests r hlook
        have hinit : s.initialRequestId = some id := h2 (id, r) hmem
        have hne : s.requests ≠ [] := by
          intro hnil; rw [hnil] at hmem; simp at hmem
        have hsreq : ¬ s.subRequest = true := fun hr => hne (h1 hr).1
        dsimp only
        by_cases hrs : r.readyState ≠ RequestReadyState.pending ∧
            r.readyState ≠ RequestReadyState.response
        · rw [if_pos hrs]
          exact ⟨h0, fun hr => absurd hr hsreq, h2⟩
        · rw [if_neg hrs]
          refine ⟨h0, fun hr => absurd hr hsreq, ?_⟩
          intro p hp
          rcases mem_updateReq _ _ _ _ hp with hp' | hp'
          · exact h2 p hp'
          · rw [hp']; exact hinit
    · have hstep : stepEvent s (.loadingFailed id t err) = s := by
        simp [stepEvent, hsub]
      rw [hstep]
      exact ⟨h0, h1, h2⟩

theorem processEvents_onlyInitial_inv (L : List NetEvent) :
    ∀ (s : WatcherState), s.onlyInitial = true →
      (s.subRequest = true → s.requests = [] ∧ s.initialRequestId = none) →
      (∀ p ∈ s.requests, s.initialRequestId = some p.1) →
      (processEvents s L).onlyInitial = true
      ∧ ((processEvents s L).subRequest = true →
          (processEvents s L).requests = [] ∧ (processEvents s L).initialRequestId = none)
      ∧ (∀ p ∈ (processEvents s L).requests,
          (processEvents s L).initialRequestId = some p.1) := by
  induction L with
  | nil => intro s h0 h1 h2; exact ⟨h0, h1, h2⟩
  | cons e rest ih =>
    intro s h0 h1 h2
    rw [processEvents_cons]
    obtain ⟨g0, g1, g2⟩ := stepEvent_onlyInitial_inv s e h0 h1 h2
    exact ih _ g0 g1 g2

theorem flip_subRequest (s : WatcherState) (h0 : s.onlyInitial = true)
    (h1 : s.subRequest = true → s.requests = [] ∧ s.initialRequestId = none) (e : NetEvent) :
    (stepEvent s e).subRequest = false ↔
      (s.subRequest = false ∨ pertainsRequestEvent s e) := by
  cases e with
  | requestWillBeSent id url t redir =>
    cases hb : s.subRequest with
    | false =>
      have hstep : stepEvent s (.requestWillBeSent id url t redir) = s := by
        simp [stepEvent, hb]
      rw [hstep, hb]
      simp
    | true =>
      obtain ⟨hreq, hinit⟩ := h1 hb
      cases redir with
      | true =>
        rw [stepEvent_redirect_eq, hb]
        simp [pertainsRequestEvent]
      | false =>
        have hflip : (stepEvent s (.requestWillBeSent id url t false)).subRequest = false := by
          simp [stepEvent, RequestWatcher.onHttpRequest, hb, h0, hreq, lookupReq]
        rw [hflip]
        simp [pertainsRequestEvent, hinit]
  | responseReceived id t st hs dc =>
    have hpres : (stepEvent s (.responseReceived id t st hs dc)).subRequest
        = s.subRequest := by
      simp only [stepEvent, RequestWatcher.onHttpResponse]
      (repeat' split) <;> rfl
    rw [hpres]
    simp [pertainsRequestEvent]
  | loadingFinished id t =>
    have hpres : (stepEvent s (.loadingFinished id t)).subRequest = s.subRequest := by
      simp only [stepEvent, RequestWatcher.onHttpFinished]
      (repeat' split) <;> rfl
    rw [hpres]
    simp [pertainsRequestEvent]
  | loadingFailed id t err =>
    have hpres : (stepEvent s (.loadingFailed id t err)).subRequest = s.subRequest := by
      simp only [stepEvent, RequestWatcher.onHttpFailed]
      (repeat' split) <;> rfl
    rw [hpres]
    simp [pertainsRequestEvent]

theorem flip_subResponse (s : WatcherState) (h0 : s.onlyInitial = true)
    (h2 : ∀ p ∈ s.requests, s.initialRequestId = some p.1) (e : NetEvent) :
    (stepEvent s e).subResponse = false ↔
      (s.subResponse = false ∨ pertainsResponseEvent s e) := by
  cases e with
  | requestWillBeSent id url t redir =>
    have hpres : (stepEvent s (.requestWillBeSent id url t redir)).subResponse
        = s.subResponse := by
      simp only [stepEvent, RequestWatcher.onHttpRequest]
      (repeat' split) <;> rfl
    rw [hpres]
    simp [pertainsResponseEvent]
  | responseReceived id t st hs dc =>
    cases hb : s.subResponse with
    | false =>
      have hstep : stepEvent s (.responseReceived id t st hs dc) = s := by
        simp [stepEvent, hb]
      rw [hstep, hb]
      simp
    | true =>
      cases hlook : lookupReq id s.requests with
      | none =>
        have hstep : stepEvent s (.responseReceived id t st hs dc) = s := by
          simp [stepEvent, hb, RequestWatcher.onHttpResponse, hlook]
        rw [hstep, hb]
        simp [pertainsResponseEvent, hlook]
      | some r =>
        have hflip : (stepEvent s (.responseReceived id t st hs dc)).subResponse = false := by
          simp only [stepEvent, hb, if_true, RequestWatcher.onHttpResponse, hlook]
          split <;> simp [h0]
        rw [hflip]
        have hinit : s.initialRequestId = some id := h2 _ (lookupReq_mem _ _ _ hlook)
        simp [pertainsResponseEvent, hlook, hinit]
  | loadingFinished id t =>
    have hpres : (stepEvent s (.loadingFinished id t)).subResponse = s.subResponse := by
      simp only [stepEvent, RequestWatcher.onHttpFinished]
      (repeat' split) <;> rfl
    rw [hpres]
    simp [pertainsResponseEvent]
  | loadingFailed id t err =>
    have hpres : (stepEvent s (.loadingFailed id t err)).subResponse = s.subResponse := by
      simp only [stepEvent, RequestWatcher.onHttpFailed]
      (repeat' split) <;> rfl
    rw [hpres]
    simp [pertainsResponseEvent]

theorem flip_subFinished (s : WatcherState) (h0 : s.onlyInitial = true)
    (h2 : ∀ p ∈ s.requests, s.initialRequestId = some p.1) (e : NetEvent) :
    (stepEvent s e).subFinished = false ↔
      (s.subFinished = false ∨ pertainsFinishedEvent s e) := by
  cases e with
  | requestWillBeSent id url t redir =>
    have hpres : (stepEvent s (.requestWillBeSent id url t redir)).subFinished
        = s.subFinished := by
      simp only [stepEvent, RequestWatcher.onHttpRequest]
      (repeat' split) <;> rfl
    rw [hpres]
    simp [pertainsFinishedEvent]
  | responseReceived id t st hs dc =>
    have hpres : (stepEvent s (.responseReceived id t st hs dc)).subFinished
        = s.subFinished := by
      simp only [stepEvent, RequestWatcher.onHttpResponse]
      (repeat' split) <;> rfl
    rw [hpres]
    simp [pertainsFinishedEvent]
  | loadingFinished id t =>
    cases hb : s.subFinished with
    | false =>
      have hstep : stepEvent s (.loadingFinished id t) = s := by
        simp [stepEvent, hb]
      rw [hstep, hb]
      simp
    | true =>
      cases hlook : lookupReq id s.requests with
      | none =>
        have hstep : stepEvent s (.loadingFinished id t) = s := by
          simp [stepEvent, hb, RequestWatcher.onHttpFinished, hlook]
        rw [hstep, hb]
        simp [pertainsFinishedEvent, hlook]
      | some r =>
        have hflip : (stepEvent s (.loadingFinished id t)).subFinished = false := by
          simp only [stepEvent, hb, if_true, RequestWatcher.onHttpFinished, hlook]
          split <;> simp [h0]
        rw [hflip]
        have hinit : s.initialRequestId = some id := h2 _ (lookupReq_mem _ _ _ hlook)
        simp [pertainsFinishedEvent, hlook, hinit]
  | loadingFailed id t err =>
    have hpres : (stepEvent s (.loadingFailed id t err)).subFinished = s.subFinished := by
      simp only [stepEvent, RequestWatcher.onHttpFailed]
      (repeat' split) <;> rfl
    rw [hpres]
    simp [pertainsFinishedEvent]

theorem flip_subFailed (s : WatcherState) (h0 : s.onlyInitial = true)
    (h2 : ∀ p ∈ s.requests, s.initialRequestId = some p.1) (e : NetEvent) :
    (stepEvent s e).subFailed = false ↔
      (s.subFailed = false ∨ pertainsFailedEvent s e) := by
  cases e with
  | requestWillBeSent id url t redir =>
    have hpres : (stepEvent s (.requestWillBeSent id url t redir)).subFailed
        = s.subFailed := by
      simp only [stepEvent, RequestWatcher.onHttpRequest]
      (repeat' split) <;> rfl
    rw [hpres]
    simp [pertainsFailedEvent]
  | responseReceived id t st hs dc =>
    have hpres : (stepEvent s (.responseReceived id t st hs dc)).subFailed
        = s.subFailed := by
      simp only [stepEvent, RequestWatcher.onHttpResponse]
      (repeat' split) <;> rfl
    rw [hpres]
    simp [pertainsFailedEvent]
  | loadingFinished id t =>
    have hpres : (stepEvent s (.loadingFinished id t)).subFailed = s.subFailed := by
      simp only [stepEvent, RequestWatcher.onHttpFinished]
      (repeat' split) <;> rfl
    rw [hpres]
    simp [pertainsFailedEvent]
  | loadingFailed id t err =>
    cases hb : s.subFailed with
    | false =>
      have hstep : stepEvent s (.loadingFailed id t err) = s := by
        simp [stepEvent, hb]
      rw [hstep, hb]
      simp
    | true =>
      cases hlook : lookupReq id s.requests with
      | none =>
        have hstep : stepEvent s (.loadingFailed id t err) = s := by
          simp [stepEvent, hb, RequestWatcher.onHttpFailed, hlook]
        rw [hstep, hb]
        simp [pertainsFailedEvent, hlook]
      | some r =>
        have hflip : (stepEvent s (.loadingFailed id t err)).subFailed = false := by
          simp only [stepEvent, hb, if_true, RequestWatcher.onHttpFailed, hlook]
          split <;> simp [h0]
        rw [hflip]
        have hinit : s.initialRequestId = some id := h2 _ (lookupReq_mem _ _ _ hlook)
        simp [pertainsFailedEvent, hlook, hinit]

/-- C6: with `onlyInitial = true`, in any reachable watcher state each of the
four Network subscriptions becomes (or stays) detached on the next event
exactly when it was already detached or the event is of that subscription's
class and pertains to the initial request; hence each subscription detaches
itself on the first event it processes that pertains to the initial request
and never on one that does not. -/
theorem requestWatcher_onlyInitial_unsubscription (L : List NetEvent) (e : NetEvent) :
    ((stepEvent (processEvents (watchInit true) L) e).subRequest = false ↔
      ((processEvents (watchInit true) L).subRequest = false
        ∨ pertainsRequestEvent (processEvents (watchInit true) L) e))
    ∧ ((stepEvent (processEvents (watchInit true) L) e).subResponse = false ↔
      ((processEvents (watchInit true) L).subResponse = false
        ∨ pertainsResponseEvent (processEvents (watchInit true) L) e))
    ∧ ((stepEvent (processEvents (watchInit true) L) e).subFinished = false ↔
      ((processEvents (watchInit true) L).subFinished = false
        ∨ pertainsFinishedEvent (processEvents (watchInit true) L) e))
    ∧ ((stepEvent (processEvents (watchInit true) L) e).subFailed = false ↔
      ((processEvents (watchInit true) L).subFailed = false
        ∨ pertainsFailedEvent (processEvents (watchInit true) L) e)) := by
  obtain ⟨h0, h1, h2⟩ := processEvents_onlyInitial_inv L (watchInit true) rfl
    (fun _ => ⟨rfl, rfl⟩) (by intro p hp; simp [watchInit] at hp)
  exact ⟨flip_subRequest _ h0 h1 e, flip_subResponse _ h0 h2 e,
    flip_subFinished _ h0 h2 e, flip_subFailed _ h0 h2 e⟩

/-! ## Header handling and C7 -/

theorem lookupReq_updateReq_self (id : String) (r' : Request)
    (l : List (String × Request)) (h : (lookupReq id l).isSome = true) :
    lookupReq id (updateReq id r' l) = some r' := by
  induction l with
  | nil => simp [lookupReq] at h
  | cons p rest ih =>
    obtain ⟨k, r₀⟩ := p
    by_cases hk : k = id
    · subst hk
      simp [updateReq, lookupReq]
    · rw [lookupReq, if_neg hk] at h
      rw [updateReq, if_neg hk, lookupReq, if_neg hk]
      exact ih h

/-- C7 counterexample: after a response carrying the header name
`Content-Type`, the record stores that name as received; it is not
lowercased, refuting the claim that all stored header names are lowercase. -/
theorem responseHeaders_not_lowercased :
    ∃ r, lookupReq "r1" (processEvents (watchInit true) responseOnlyTrace).requests = some r
      ∧ r.headers = [("Content-Type", "text/html")]
      ∧ ¬ headerNamesLowercased r.headers := by
  refine ⟨⟨"r1", "http://example.com/", 0, .response, some 1, some 200,
    [("Content-Type", "text/html")], false, none, none⟩, by decide, rfl, ?_⟩
  intro hcl
  have hx := hcl ("Content-Type", "text/html") (List.mem_singleton.mpr rfl)
    'C' (by decide)
  exact absurd hx (by decide)

/-- C7 amended: `onHttpResponse` stores on the record exactly the header map
carried by the `responseReceived` event (a shallow copy, names as received),
together with the response timestamp, status and cache flag. -/
theorem responseHeaders_stored_verbatim (s : WatcherState) (id : String) (t st : Nat)
    (hs : List (String × String)) (dc : Bool) (r : Request)
    (hsub : s.subResponse = true)
    (hlook : lookupReq id s.requests = some r)
    (hpend : r.readyState = .pending) :
    lookupReq id (stepEvent s (.responseReceived id t st hs dc)).requests
      = some { r with readyState := .response,
                      responseReceivedAt := some t,
                      statusCode := some st,
                      headers := hs,
                      fromDiskCache := dc } := by
  have hne : ¬ r.readyState ≠ RequestReadyState.pending := by simp [hpend]
  simp only [stepEvent, hsub, if_true, RequestWatcher.onHttpResponse, hlook, if_neg hne]
  exact lookupReq_updateReq_self id _ s.requests (by simp [hlook])

/-- Witness for C7's amended theorem at a concrete state and event. -/
theorem responseHeaders_stored_verbatim_witness :
    lookupReq "r1" (stepEvent
        (processEvents (watchInit true) [.requestWillBeSent "r1" "u" 0 false])
        (.responseReceived "r1" 1 200 [("Content-Type", "text/html")] false)).requests
      = some ⟨"r1", "u", 0, .response, some 1, some 200,
          [("Content-Type", "text/html")], false, none, none⟩ :=
  responseHeaders_stored_verbatim
    (processEvents (watchInit true) [.requestWillBeSent "r1" "u" 0 false])
    "r1" 1 200 [("Content-Type", "text/html")] false
    ⟨"r1", "u", 0, .pending, none, none, [], false, none, none⟩
    rfl rfl rfl

/-! ## Record well-formedness, C2 and C3 -/

theorem stepEvent_wf_inv (s : WatcherState) (e : NetEvent)
    (h : ∀ p ∈ s.requests, RequestWf p.2) :
    ∀ p ∈ (stepEvent s e).requests, RequestWf p.2 := by
  cases e with
  | requestWillBeSent id url t redir =>
    by_cases hb : s.subRequest = true
    · cases redir with
      | true => rw [stepEvent_redirect_eq]; exact h
      | false =>
        simp only [stepEvent, hb, if_true, RequestWatcher.onHttpRequest, Bool.false_eq_true,
          if_false]
        split
        · exact h
        · intro p hp
          rcases List.mem_append.mp hp with hp' | hp'
          · exact h p hp'
          · rw [List.mem_singleton.mp hp']
            exact ⟨fun _ => rfl, fun hx => by rcases hx with hx | hx <;> simp at hx, rfl⟩
    · have hstep : stepEvent s (.requestWillBeSent id url t redir) = s := by
        simp [stepEvent, hb]
      rw [hstep]; exact h
  | responseReceived id t st hs dc =>
    by_cases hb : s.subResponse = true
    · simp only [stepEvent, hb, if_true, RequestWatcher.onHttpResponse]
      cases hlook : lookupReq id s.requests with
      | none => exact h
      | some r =>
        dsimp only
        by_cases hrs : r.readyState ≠ RequestReadyState.pending
        · rw [if_pos hrs]; exact h
        · rw [if_neg hrs]
          intro p hp
          rcases mem_updateReq _ _ _ _ hp with hp' | hp'
          · exact h p hp'
          · rw [hp']
            exact ⟨fun hx => by simp at hx, fun _ => rfl, rfl⟩
    · have hstep : stepEvent s (.responseReceived id t st hs dc) = s := by
        simp [stepEvent, hb]
      rw [hstep]; exact h
  | loadingFinished id t =>
    by_cases hb : s.subFinished = true
    · simp only [stepEvent, hb, if_true, RequestWatcher.onHttpFinished]
      cases hlook : lookupReq id s.requests with
      | none => exact h
      | some r =>
        have hwfr := h (id, r) (lookupReq_mem _ _ _ hlook)
        dsimp only
        by_cases hrs : r.readyState ≠ RequestReadyState.response
        · rw [if_pos hrs]; exact h
        · have hresp : r.readyState = RequestReadyState.response := not_not.mp hrs
          rw [if_neg hrs]
          intro p hp
          rcases mem_updateReq _ _ _ _ hp with hp' | hp'
          · exact h p hp'
          · rw [hp']
            exact ⟨fun hx => by simp at hx,
              fun _ => hwfr.2.1 (Or.inl hresp), hwfr.2.2⟩
    · have hstep : stepEvent s (.loadingFinished id t) = s := by
        simp [stepEvent, hb]
      rw [hstep]; exact h
  | loadingFailed id t err =>
    by_cases hb : s.subFailed = true
    · simp only [stepEvent, hb, if_true, RequestWatcher.onHttpFailed]
      cases hlook : lookupReq id s.requests with
      | none => exact h
      | some r =>
        have hwfr := h (id, r) (lookupReq_mem _ _ _ hlook)
        dsimp only
        by_cases hrs : r.readyState ≠ RequestReadyState.pending ∧
            r.readyState ≠ RequestReadyState.response
        · rw [if_pos hrs]; exact h
        · rw [if_neg hrs]
          intro p hp
          rcases mem_updateReq _ _ _ _ hp with hp' | hp'
          · exact h p hp'
          · rw [hp']
            exact ⟨fun hx => by simp at hx,
              fun hx => by rcases hx with hx | hx <;> simp at hx, hwfr.2.2⟩
    · have hstep : stepEvent s (.loadingFailed id t err) = s := by
        simp [stepEvent, hb]
      rw [hstep]; exact h

theorem processEvents_wf (L : List NetEvent) :
    ∀ (s : WatcherState), (∀ p ∈ s.requests, RequestWf p.2) →
      ∀ p ∈ (processEvents s L).requests, RequestWf p.2 := by
  induction L with
  | nil => intro s h; exact h
  | cons e rest ih =>
    intro s h
    rw [processEvents_cons]
    exact ih _ (stepEvent_wf_inv s e h)

theorem initialRequestRecord_elim (w : WatcherState) (r : Request)
    (h : w.initialRequestRecord = some r) :
    ∃ i, w.initialRequestId = some i ∧ lookupReq i w.requests = some r := by
  unfold WatcherState.initialRequestRecord at h
  cases hid : w.initialRequestId with
  | none => rw [hid] at h; cases h
  | some i => rw [hid] at h; exact ⟨i, rfl, h⟩

theorem resultFields_iff (w : WatcherState) (hwf : ∀ p ∈ w.requests, RequestWf p.2) :
    ((resultHttpStatus w).isSome = true ∧ (resultHeaders w).isSome = true) ↔
      w.initialCompletedWithResponse = true := by
  cases hrec : w.initialRequestRecord with
  | none =>
    simp [resultHttpStatus, resultHeaders, WatcherState.initialCompletedWithResponse,
      WatcherState.initialRequest, hrec]
  | some r =>
    obtain ⟨i, hid, hlook⟩ := initialRequestRecord_elim w r hrec
    obtain ⟨w1, w2, w3⟩ := hwf (i, r) (lookupReq_mem _ _ _ hlook)
    cases hrs : r.readyState with
    | pending =>
      simp [resultHttpStatus, resultHeaders, WatcherState.initialCompletedWithResponse,
        WatcherState.initialRequest, hrec, hrs, Request.reachedAtLeastResponse]
    | response =>
      simp [resultHttpStatus, resultHeaders, WatcherState.initialCompletedWithResponse,
        WatcherState.initialRequest, hrec, hrs, Request.reachedAtLeastResponse]
    | loaded =>
      have hresp : r.responseReceivedAt.isSome = true := w2 (Or.inr hrs)
      have hsc : r.statusCode.isSome = true := w3.trans hresp
      simp [resultHttpStatus, resultHeaders, WatcherState.initialCompletedWithResponse,
        WatcherState.initialRequest, hrec, hrs, Request.reachedAtLeastResponse, hresp, hsc]
    | failed =>
      cases hresp : r.responseReceivedAt with
      | none =>
        have hsc : r.statusCode.isSome = false := by rw [w3, hresp]; rfl
        simp [resultHttpStatus, resultHeaders, WatcherState.initialCompletedWithResponse,
          WatcherState.initialRequest, hrec, hrs, Request.reachedAtLeastResponse, hresp, hsc]
      | some ts =>
        have hsc : r.statusCode.isSome = true := by rw [w3, hresp]; rfl
        simp [resultHttpStatus, resultHeaders, WatcherState.initialCompletedWithResponse,
          WatcherState.initialRequest, hrec, hrs, Request.reachedAtLeastResponse, hresp, hsc]

theorem renderModel_err_fields (opts : TabRenderOptions) (env : RenderEnv)
    (etype : RenderErrorType) (emsg : Option String) (st : Option Nat)
    (hd : Option (List (String × String)))
    (h : renderModel opts env = some (.err etype emsg st hd)) :
    st = resultHttpStatus (finalWatcher opts env)
    ∧ hd = resultHeaders (finalWatcher opts env) := by
  unfold renderModel at h
  cases h1 : env.createTabFails with
  | true =>
    rw [h1] at h
    simp only [if_true, getResult, Option.some.injEq, RenderResult.err.injEq] at h
    exact ⟨h.2.2.1.symm, h.2.2.2.symm⟩
  | false =>
    rw [h1] at h
    simp only [Bool.false_eq_true, if_false] at h
    cases h2 : env.timedOut with
    | true =>
      rw [h2] at h
      simp only [if_true] at h
      by_cases h3 : env.domContentLoaded = false ∨ opts.allowsPartialLoad = false
      · rw [if_pos h3] at h
        simp only [getResult, Option.some.injEq, RenderResult.err.injEq] at h
        exact ⟨h.2.2.1.symm, h.2.2.2.symm⟩
      · rw [if_neg h3] at h
        cases h4 : env.htmlRead with
        | none => rw [h4] at h; cases h
        | some html =>
          rw [h4] at h
          simp only [getResult, Option.some.injEq] at h
          cases h
    | false =>
      rw [h2] at h
      simp only [Bool.false_eq_true, if_false] at h
      rcases hlp : loadPage opts (finalWatcher opts env) env.triggerCompletion
        with ⟨oe, ru, oc⟩
      rw [hlp] at h
      cases oe with
      | some e =>
        simp only [getResult, Option.some.injEq, RenderResult.err.injEq] at h
        exact ⟨h.2.2.1.symm, h.2.2.2.symm⟩
      | none =>
        cases h4 : env.htmlRead with
        | none => rw [h4] at h; cases h
        | some html =>
          rw [h4] at h
          simp only [getResult, Option.some.injEq] at h
          cases h

/-- C2 counterexample: a render that errs with Timeout while the initial
request sits at the Response ready state (a response was received, the request
never finished) returns no `httpStatus`/`headers`, refuting "populated iff the
initial request reached at least Response". -/
theorem renderError_fields_claim_false :
    ∃ r, (finalWatcher plainOptions timeoutAtResponseEnv).initialRequestRecord = some r
      ∧ r.reachedAtLeastResponse = true
      ∧ renderModel plainOptions timeoutAtResponseEnv = some (.err .timeout none none none) := by
  exact ⟨⟨"r1", "http://example.com/", 0, .response, some 1, some 200,
    [("Content-Type", "text/html")], false, none, none⟩, by decide, by decide, by decide⟩

/-- C2 (amended): for every render that returns an error result, `httpStatus`
and `headers` are populated iff the initial request record completed (reached
`Loaded` or `Failed`) with a response received along the way. -/
theorem renderError_fields_iff_initialCompleted (opts : TabRenderOptions) (env : RenderEnv)
    (etype : RenderErrorType) (emsg : Option String) (st : Option Nat)
    (hd : Option (List (String × String)))
    (h : renderModel opts env = some (.err etype emsg st hd)) :
    (st.isSome = true ∧ hd.isSome = true) ↔
      (finalWatcher opts env).initialCompletedWithResponse = true := by
  obtain ⟨h1, h2⟩ := renderModel_err_fields opts env etype emsg st hd h
  rw [h1, h2]
  refine resultFields_iff _ ?_
  unfold finalWatcher
  exact processEvents_wf env.netEvents (watchInit (!opts.debug))
    (by intro p hp; simp [watchInit] at hp)

/-- Witness for C2's amended theorem: a timed-out render whose initial request
finished loading carries `httpStatus` 200 and the headers. -/
theorem renderError_fields_iff_initialCompleted_witness :
    (((some 200 : Option Nat).isSome = true)
      ∧ ((some [("Content-Type", "text/html")] : Option (List (String × String))).isSome = true))
    ↔ (finalWatcher plainOptions loadedTimeoutEnv).initialCompletedWithResponse = true :=
  renderError_fields_iff_initialCompleted plainOptions loadedTimeoutEnv .timeout none
    (some 200) (some [("Content-Type", "text/html")]) (by decide)

/-- C3: for every render whose page-load phase ran out of time, if
`domContentLoaded` is false or partial loads are not allowed the render
returns an error of kind Timeout (with `httpStatus`/`headers` as known);
otherwise it continues, reads the HTML, and returns a successful result whose
completion type is PageLoadTimeout. -/
theorem renderTimeout_behavior (opts : TabRenderOptions) (env : RenderEnv)
    (hct : env.createTabFails = false) (hto : env.timedOut = true) :
    ((env.domContentLoaded = false ∨ opts.allowsPartialLoad = false) →
      renderModel opts env = some (.err .timeout none
        (resultHttpStatus (finalWatcher opts env)) (resultHeaders (finalWatcher opts env))))
    ∧ (env.domContentLoaded = true → opts.allowsPartialLoad = true →
      ∀ html, env.htmlRead = some html →
        renderModel opts env = some (.ok
          ((finalWatcher opts env).initialRequest.map (fun r => r.url))
          (resultHttpStatus (finalWatcher opts env)) (resultHeaders (finalWatcher opts env))
          (some html) (some .PageLoadTimeout))) := by
  constructor
  · intro hcond
    simp [renderModel, hct, hto, hcond, getResult]
  · intro hdom hpl html hhtml
    have hcond : ¬ (env.domContentLoaded = false ∨ opts.allowsPartialLoad = false) := by
      simp [hdom, hpl]
    simp [renderModel, hct, hto, hcond, hhtml, getResult]

/-- Witness for C3: the timeout error branch at one concrete render and the
partial-load branch at another. -/
theorem renderTimeout_behavior_witness :
    renderModel plainOptions timeoutAtResponseEnv = some (.err .timeout none none none)
    ∧ renderModel partialOptions partialLoadEnv
        = some (.ok none none none (some "<p>1</p>") (some .PageLoadTimeout)) := by
  constructor
  · exact (renderTimeout_behavior plainOptions timeoutAtResponseEnv rfl rfl).1 (Or.inl rfl)
  · exact (renderTimeout_behavior partialOptions partialLoadEnv rfl rfl).2 rfl rfl
      "<p>1</p>" rfl

/-! ## Single-flight recycling (C4) -/

/-- C4: `recycleMain` is single-flight through its `ReentrancyGuard`: when a
second invocation arrives while the first is still pending, it receives the
same promise (hence both invocations resolve to the same result value), only
the first invocation carries `first = true` (so the body runs once and exactly
one `recycle` event is emitted for the pair). -/
theorem recycleMain_single_flight (g : ReentrancyGuard) (fresh₁ fresh₂ : Nat)
    (hidle : g.promise = none) :
    (g.run fresh₁).1 = ((g.run fresh₁).2.2.run fresh₂).1
    ∧ (g.run fresh₁).2.1 = true
    ∧ ((g.run fresh₁).2.2.run fresh₂).2.1 = false
    ∧ (∀ (resolution : Nat → BrowserRecycleResult),
        resolution (g.run fresh₁).1 = resolution ((g.run fresh₁).2.2.run fresh₂).1)
    ∧ recycleEmitCount (g.run fresh₁).2.1
        + recycleEmitCount ((g.run fresh₁).2.2.run fresh₂).2.1 = 1 := by
  simp [ReentrancyGuard.run, hidle, recycleEmitCount]

/-- Witness for C4 on a fresh guard. -/
theorem recycleMain_single_flight_witness :
    ((ReentrancyGuard.mk none).run 5).2.1 = true
    ∧ (((ReentrancyGuard.mk none).run 5).2.2.run 7).2.1 = false
    ∧ recycleEmitCount ((ReentrancyGuard.mk none).run 5).2.1
        + recycleEmitCount (((ReentrancyGuard.mk none).run 5).2.2.run 7).2.1 = 1 := by
  obtain ⟨h1, h2, h3, h4, h5⟩ := recycleMain_single_flight (ReentrancyGuard.mk none) 5 7 rfl
  exact ⟨h2, h3, h5⟩

/-! ## Auto-recycle retry option (C5) -/

/-- C5: the supervisor constructor derives `autoRecycleRetryAfterMillis` from
`options.autoRecycleAfterUptimeMillis`, never reading the explicit
`autoRecycleRetryAfterMillis` option. With `autoRecycleAfterUptimeMillis =
5000` and `autoRecycleRetryAfterMillis = 100`, the recycle following a
StandbyUnavailable result is scheduled after 5000 ms, not the configured
100 ms; with only `autoRecycleRetryAfterMillis = 100` given, the default
10000 ms is used instead. -/
theorem supervisorRetryOption_ignored :
    (BrowserSupervisor.deriveInternalOptions ⟨1800000, 10000, 60000⟩
      ⟨none, some 5000, some 100, none⟩).autoRecycleRetryAfterMillis = 5000
    ∧ (BrowserSupervisor.deriveInternalOptions ⟨1800000, 10000, 60000⟩
      ⟨none, none, some 100, none⟩).autoRecycleRetryAfterMillis = 10000
    ∧ BrowserSupervisor.nextRecycleDelay
        (BrowserSupervisor.deriveInternalOptions ⟨1800000, 10000, 60000⟩
          ⟨none, some 5000, some 100, none⟩) 0 .standbyUnavailable = 5000
    ∧ (5000 : Nat) ≠ 100 ∧ (10000 : Nat) ≠ 100 := by
  refine ⟨rfl, rfl, rfl, by decide, by decide⟩

/-! ## Tiered backoff (C8) -/

/-- C8: on the table `[(1, 10), (3, 30)]` the first `nextTry` call already
returns 30 because `nextTry` advances when the next entry's threshold is `≥`
the try counter, while the claim prescribes 10 (the threshold 3 has not been
crossed by 1 try); `reset` does restore the first entry's delay. -/
theorem triesBackoff_first_call_wrong_tier :
    ∃ b, TriesBackoff.create [⟨1, 10⟩, ⟨3, 30⟩] = some b
      ∧ (b.nextTry).1 = 30
      ∧ claimedTieredDelay b.entries 1 = 10
      ∧ ((b.nextTry).2.reset).getMillis = 10 := by
  refine ⟨⟨[⟨1, 10⟩, ⟨3, 30⟩], 0, 0⟩, by decide, by decide, by decide, by decide⟩

/-! ## Dialog handler close (C9) -/

/-- C9: `init` never moves the status off `Initial`, so `close` takes the
early-return branch for status `Initial` and detaches neither of the two
`Page` listeners: after `init` followed by `close`, both subscriptions are
still attached, refuting the claim that `close` detaches every subscription
the handler registered. -/
theorem dialogHandler_close_leaves_listeners :
    ∃ h, DialogHandler.make.init = some h
      ∧ h.subDialogOpening = true ∧ h.subDialogClosed = true
      ∧ (h.close).status = .stopped
      ∧ (h.close).subDialogOpening = true
      ∧ (h.close).subDialogClosed = true := by
  exact ⟨⟨.initial, true, true, true⟩, by decide, rfl, rfl, by decide, by decide, by decide⟩

/-! ## Stopping a never-started process (C10) -/

/-- C10: calling `stop()` on a `BrowserProcess` in status `Initial` completes
without any error path (the model of `stopImpl` is total), emits `stopping`
and `stop` with reason Requested (passing through `Stopping`), leaves the
process `Stopped`, and `startImpl`'s status guard permits a new `start()`. -/
theorem browserProcess_stop_from_initial :
    (BrowserProcess.stopImpl initialProcess .requested).2
        = [.stopping .requested, .stop .requested]
    ∧ (BrowserProcess.stopImpl initialProcess .requested).1.status = .stopped
    ∧ (BrowserProcess.stopImpl initialProcess .requested).1.stopReason = some .requested
    ∧ BrowserProcess.startPermitted (BrowserProcess.stopImpl initialProcess .requested).1
        = true := by
  decide

end Prenda
